import Mathlib

/-!
# Verification of the `trusty_rusty_todo_list` persistence layer

Shallow embedding of the storage layer of the repository:
* data model (`src/src/models`): `Priority`, `Task`, `Category`, `StorageData`,
  `StorageData::validate`;
* flat-file backend (`JsonStorage` in `src/src/storage/mod.rs`; note that
  `src/src/storage/mod.rs` declares only `mod migrations; mod sqlite;`, so the
  variant in `src/src/storage/json.rs` is not part of the module tree — the
  live `JsonStorage` is the one in `mod.rs`);
* derived operations (default bodies of the `Storage` trait in
  `src/src/storage/mod.rs`), instantiated at the flat-file backend;
* relational backend (`SqliteStorage` in `src/src/storage/sqlite.rs`);
* migration engine (`src/src/storage/migrations.rs`).

Modelling conventions:
* `u64`/`u32` ids and counters are `Nat` (the algorithms never come near the
  wrap-around point in any reachable store);
* `chrono::DateTime<Utc>` instants are `Int` nanoseconds since the epoch;
  `to_rfc3339` is injective and `parse_from_rfc3339` inverts it, so a database
  text cell holding a timestamp is represented by the instant it denotes, and
  an unparsable cell by its raw text;
* filesystem and database I/O are assumed healthy (no disk failures); the
  `serde_json` document is modelled as a JSON AST, with encoders/decoders
  translated from the `#[derive(Serialize, Deserialize)]` output shapes;
* fallible Rust functions returning `Result<T, StorageError>` become
  `Except StorageError T`; state-passing makes the file/database state
  explicit, and returning `Except.error` leaves the caller's state unchanged
  (for the relational backend this is the transaction rollback on error).
-/

namespace TodoStorage

/-- The `Priority` enum (src/src/models: High / Medium / Low). -/
inductive Priority where
  | high
  | medium
  | low
deriving DecidableEq

/-- The `chrono::DateTime<Utc>`, as nanoseconds since the Unix epoch. -/
abbrev Timestamp := Int

/-- The `Task` struct as constructed and consumed by the storage layer
(`src/src/storage/mod.rs`, `src/src/storage/sqlite.rs`):
id, title, category_id, completed, priority, created_at, updated_at. -/
structure Task where
  id : Nat
  title : String
  category_id : Nat
  completed : Bool
  priority : Priority
  created_at : Timestamp
  updated_at : Timestamp
deriving DecidableEq

/-- The `Category` struct as consumed by the storage layer:
id, name, created_at. -/
structure Category where
  id : Nat
  name : String
  created_at : Timestamp
deriving DecidableEq

/-- The `StorageData`: the snapshot persisted by both backends (the storage layer
constructs exactly the fields `tasks` and `categories`). -/
structure StorageData where
  tasks : List Task
  categories : List Category
deriving DecidableEq

/-- The `StorageError` (variants of `storage::StorageError` together with the
validation variants of `models::StorageError` used by `StorageData::validate`). -/
inductive StorageError where
  | io (msg : String)
  | serialization (msg : String)
  | sqlite (msg : String)
  | storage (msg : String)
  | invalidTaskCategory (taskId categoryId : Nat)
  | duplicateCategory (name : String)
deriving DecidableEq

/-- Rust `str::to_lowercase` (ASCII fragment, which is all the code compares). -/
def lowerAscii (s : String) : String :=
  String.mk (s.data.map Char.toLower)

/-- First category whose lowercased name already occurred earlier in the list
(the `HashSet` insertion loop of `StorageData::validate`). -/
def firstDuplicateName : List Category → List String → Option Category
  | [], _ => none
  | c :: rest, seen =>
    if lowerAscii c.name ∈ seen then some c
    else firstDuplicateName rest (lowerAscii c.name :: seen)

/-- The `StorageData::validate` (src/src/models/mod.rs, lines 206–223): every task
with nonzero `category_id` must reference an existing category; category names
must be unique ignoring case. -/
def StorageData.validate (d : StorageData) : Except StorageError Unit :=
  match d.tasks.find? (fun t =>
      t.category_id ≠ 0 && !(d.categories.any (fun c => c.id == t.category_id))) with
  | some t => .error (.invalidTaskCategory t.id t.category_id)
  | none =>
    match firstDuplicateName d.categories [] with
    | some c => .error (.duplicateCategory c.name)
    | none => .ok ()

/-! ## The serde_json document model -/

/-- A `serde_json` value. A `DateTime<Utc>` serializes to its RFC3339 string;
since that rendering is injective and parsed back exactly, such a string leaf
is represented by the instant it denotes (`timestamp`). -/
inductive Json where
  | null
  | bool (b : Bool)
  | num (n : Int)
  | str (s : String)
  | timestamp (t : Timestamp)
  | arr (elems : List Json)
  | obj (fields : List (String × Json))

/-- Field lookup in a serialized JSON object. -/
def getField (fields : List (String × Json)) (k : String) : Option Json :=
  (fields.find? (fun p => p.1 == k)).map (fun p => p.2)

/-- The `serde` encoding of `Priority` (unit enum variants become their names). -/
def encodePriority : Priority → Json
  | .high => .str ("High")
  | .medium => .str ("Medium")
  | .low => .str ("Low")

/-- The `serde` decoding of `Priority`. -/
def decodePriority : Json → Option Priority
  | .str ("High") => some .high
  | .str ("Medium") => some .medium
  | .str ("Low") => some .low
  | _ => none

/-- The `serde` decoding of a `u64` (a nonnegative JSON integer). -/
def decodeU64 : Json → Option Nat
  | .num (.ofNat n) => some n
  | _ => none

/-- The `serde` decoding of a `bool`. -/
def decodeBool : Json → Option Bool
  | .bool b => some b
  | _ => none

/-- The `serde` decoding of a `DateTime<Utc>` (an RFC3339 string leaf). -/
def decodeTimestamp : Json → Option Timestamp
  | .timestamp t => some t
  | _ => none

/-- The `#[derive(Serialize)]` for `Task`. -/
def encodeTask (t : Task) : Json :=
  .obj [("id", .num t.id), ("title", .str t.title),
        ("category_id", .num t.category_id), ("completed", .bool t.completed),
        ("priority", encodePriority t.priority),
        ("created_at", .timestamp t.created_at),
        ("updated_at", .timestamp t.updated_at)]

/-- The `#[derive(Deserialize)]` for `Task`. -/
def decodeTask : Json → Option Task
  | .obj fields => do
    let id ← getField fields ("id") >>= decodeU64
    let title ← getField fields ("title") >>= (fun j => match j with | .str s => some s | _ => none)
    let category_id ← getField fields ("category_id") >>= decodeU64
    let completed ← getField fields ("completed") >>= decodeBool
    let priority ← getField fields ("priority") >>= decodePriority
    let created_at ← getField fields ("created_at") >>= decodeTimestamp
    let updated_at ← getField fields ("updated_at") >>= decodeTimestamp
    some { id, title, category_id, completed, priority, created_at, updated_at }
  | _ => none

/-- The `#[derive(Serialize)]` for `Category`. -/
def encodeCategory (c : Category) : Json :=
  .obj [("id", .num c.id), ("name", .str c.name),
        ("created_at", .timestamp c.created_at)]

/-- The `#[derive(Deserialize)]` for `Category`. -/
def decodeCategory : Json → Option Category
  | .obj fields => do
    let id ← getField fields ("id") >>= decodeU64
    let name ← getField fields ("name") >>= (fun j => match j with | .str s => some s | _ => none)
    let created_at ← getField fields ("created_at") >>= decodeTimestamp
    some { id, name, created_at }
  | _ => none

/-- Decoding a JSON array elementwise (`serde` `Vec<T>` deserialization). -/
def decodeListWith (f : Json → Option α) : List Json → Option (List α)
  | [] => some []
  | j :: rest => do
    let x ← f j
    let xs ← decodeListWith f rest
    some (x :: xs)

/-- The `#[derive(Serialize)]` for `StorageData`. -/
def encodeStorageData (d : StorageData) : Json :=
  .obj [("tasks", .arr (d.tasks.map encodeTask)),
        ("categories", .arr (d.categories.map encodeCategory))]

/-- The `#[derive(Deserialize)]` for `StorageData`. -/
def decodeStorageData : Json → Option StorageData
  | .obj fields => do
    let tasks ← getField fields ("tasks") >>=
      (fun j => match j with | .arr xs => decodeListWith decodeTask xs | _ => none)
    let categories ← getField fields ("categories") >>=
      (fun j => match j with | .arr xs => decodeListWith decodeCategory xs | _ => none)
    some { tasks, categories }
  | _ => none

/-! ## The flat-file backend (`JsonStorage` in src/src/storage/mod.rs) -/

/-- The state of the backing file: missing, present with contents that are not
a JSON document (an existing empty file is `text ("")`), or holding a document. -/
inductive FileState where
  | absent
  | text (s : String)
  | doc (j : Json)

/-- The `serde_json::from_str::<StorageData>` applied to the file contents:
non-JSON text (in particular the empty string) is a `Serialization` error, and
so is a document of the wrong shape. -/
def fromStr : FileState → Except StorageError StorageData
  | .absent => .error (.io ("No such file or directory"))
  | .text s => .error (.serialization ("expected value: " ++ s))
  | .doc j =>
    match decodeStorageData j with
    | some d => .ok d
    | none => .error (.serialization ("invalid type"))

/-- The `JsonStorage::save` (src/src/storage/mod.rs, lines 316–339): serialize and
write the whole snapshot, then read it back and compare the task and category
counts; a mismatch is the `Data integrity check failed` Storage error.
No invariant validation is performed. The argument `fs` is the old file state,
overwritten by the write. -/
def jsonSave (data : StorageData) (_fs : FileState) : Except StorageError FileState :=
  let written := FileState.doc (encodeStorageData data)
  match fromStr written with
  | .error e => .error e
  | .ok read_data =>
    if read_data.tasks.length ≠ data.tasks.length
        || read_data.categories.length ≠ data.categories.length then
      .error (.storage ("Data integrity check failed"))
    else
      .ok written

/-- The `JsonStorage::load` (src/src/storage/mod.rs, lines 341–352): a missing file
yields the empty snapshot; otherwise the contents are deserialized — with no
special case for an existing empty file and no invariant validation. -/
def jsonLoad : FileState → Except StorageError StorageData
  | .absent => .ok { tasks := [], categories := [] }
  | .text s => fromStr (.text s)
  | .doc j => fromStr (.doc j)

/-! ## Derived operations (default bodies of the `Storage` trait,
src/src/storage/mod.rs), instantiated at the flat-file backend.

Each is exactly `load` → in-memory mutation → `save`. The current time
(`chrono::Utc::now()`) is passed explicitly where the body uses it. -/

/-- In-place update of the first task with the given id
(`iter_mut().find(...)` followed by assignment). -/
def mapFirstTask (task_id : Nat) (f : Task → Task) : List Task → List Task
  | [] => []
  | t :: rest =>
    if t.id = task_id then f t :: rest else t :: mapFirstTask task_id f rest

/-- The `Storage::delete_task` (lines 48–52): retain all tasks with a different id
and save — a missing id is *not* reported. -/
def delete_task (fs : FileState) (task_id : Nat) : Except StorageError FileState := do
  let data ← jsonLoad fs
  jsonSave { data with tasks := data.tasks.filter (fun t => t.id ≠ task_id) } fs

/-- The `Storage::update_task` (lines 54–65): replace the first task with the same
id, or fail with `Task with id {id} not found`. -/
def update_task (fs : FileState) (task : Task) : Except StorageError FileState := do
  let data ← jsonLoad fs
  if data.tasks.any (fun t => t.id == task.id) then
    jsonSave { data with tasks := mapFirstTask task.id (fun _ => task) data.tasks } fs
  else
    .error (.storage ("Task with id (" ++ toString task.id ++ ") not found"))

/-- The `Storage::get_next_task_id` (lines 147–150):
`tasks.iter().map(|t| t.id).max().unwrap_or(0) + 1`. -/
def get_next_task_id (fs : FileState) : Except StorageError Nat := do
  let data ← jsonLoad fs
  .ok (((data.tasks.map Task.id).max?).getD 0 + 1)

/-- The `Storage::get_next_category_id` (lines 152–155):
`categories.iter().map(|c| c.id).max().unwrap_or(0) + 1`. -/
def get_next_category_id (fs : FileState) : Except StorageError Nat := do
  let data ← jsonLoad fs
  .ok (((data.categories.map Category.id).max?).getD 0 + 1)

/-- The `Storage::move_task_to_category` (lines 181–197): set the category and
touch `updated_at` on the first task with the given id, or fail with
`Task with id {id} not found`. -/
def move_task_to_category (now : Timestamp) (fs : FileState)
    (task_id new_category_id : Nat) : Except StorageError FileState := do
  let data ← jsonLoad fs
  if data.tasks.any (fun t => t.id == task_id) then
    jsonSave { data with tasks := (mapFirstTask task_id
      (fun t => { t with category_id := new_category_id, updated_at := now }) data.tasks) } fs
  else
    .error (.storage ("Task with id (" ++ toString task_id ++ ") not found"))

/-- The `Storage::soft_delete_task` (lines 212–215): move to category 0. -/
def soft_delete_task (now : Timestamp) (fs : FileState) (task_id : Nat) :
    Except StorageError FileState :=
  move_task_to_category now fs task_id 0

/-- The `chrono::Duration::days` in nanoseconds. -/
def durationDays (days : Nat) : Int := (days : Int) * 86400000000000

/-- The `Storage::purge_deleted_tasks` (lines 217–233): with
`threshold = now - days`, keep a task in category 0 only when
`updated_at > threshold`; keep every other task. -/
def purge_deleted_tasks (now : Timestamp) (fs : FileState) (days_threshold : Nat) :
    Except StorageError FileState := do
  let data ← jsonLoad fs
  let threshold := now - durationDays days_threshold
  jsonSave { data with tasks := data.tasks.filter (fun t =>
    if t.category_id = 0 then threshold < t.updated_at else true) } fs

/-! ## The relational backend (`SqliteStorage`, src/src/storage/sqlite.rs) -/

/-- A TEXT cell meant to hold an RFC3339 timestamp: either the rendering of an
instant (`chrono::to_rfc3339` is injective and `parse_from_rfc3339` inverts
it), or text that does not parse as RFC3339. -/
inductive SqlText where
  | rfc3339 (t : Timestamp)
  | malformed (s : String)
deriving DecidableEq

/-- The `DateTime::to_rfc3339`. -/
def to_rfc3339 (t : Timestamp) : SqlText := .rfc3339 t

/-- The `DateTime::parse_from_rfc3339`. -/
def parse_from_rfc3339 : SqlText → Option Timestamp
  | .rfc3339 t => some t
  | .malformed _ => none

/-- A row of the `tasks` table (id, title, category_id, completed, priority,
created_at, updated_at); `priority` is a TEXT cell, timestamps are TEXT cells. -/
structure TaskRow where
  id : Nat
  title : String
  category_id : Nat
  completed : Bool
  priority : String
  created_at : SqlText
  updated_at : SqlText
deriving DecidableEq

/-- A row of the `categories` table (id, name, created_at). -/
structure CategoryRow where
  id : Nat
  name : String
  created_at : SqlText
deriving DecidableEq

/-- The SQLite database: the `schema_version` table's single value and the two
data tables. `id INTEGER PRIMARY KEY` makes `id` the rowid, so a full-table
`SELECT` scans in ascending id order: each table is kept as a list sorted by
ascending id. -/
structure Db where
  schema_version : Int
  categories : List CategoryRow
  tasks : List TaskRow
deriving DecidableEq

/-- The freshly initialized database (`SqliteStorage::new` on a new file runs
`initialize_schema`: create the tables, seed `schema_version` with 1, apply the
— empty — migration list). -/
def initDb : Db := { schema_version := 1, categories := [], tasks := [] }

/-- The `SqliteStorage::priority_to_string` (lines 95–101). -/
def priority_to_string : Priority → String
  | .high => "high"
  | .medium => "medium"
  | .low => "low"

/-- The `SqliteStorage::string_to_priority` (lines 103–110): lowercase, then match
high/medium/low; anything else is `Invalid priority: {s}`. -/
def string_to_priority (s : String) : Except StorageError Priority :=
  match lowerAscii s with
  | "high" => .ok .high
  | "medium" => .ok .medium
  | "low" => .ok .low
  | _ => .error (.storage ("Invalid priority: " ++ s))

/-- Column encoding of a `Task` as performed by the `INSERT` in
`SqliteStorage::save`. -/
def taskToRow (t : Task) : TaskRow :=
  { id := t.id, title := t.title, category_id := t.category_id,
    completed := t.completed, priority := priority_to_string t.priority,
    created_at := to_rfc3339 t.created_at, updated_at := to_rfc3339 t.updated_at }

/-- Column encoding of a `Category` as performed by the `INSERT` in
`SqliteStorage::save`. -/
def categoryToRow (c : Category) : CategoryRow :=
  { id := c.id, name := c.name, created_at := to_rfc3339 c.created_at }

/-- The `INSERT` of one row into a table with `id INTEGER PRIMARY KEY`: placed at
its id position; a duplicate id is a UNIQUE-constraint failure (`none`). -/
def insertRow (key : α → Nat) (row : α) : List α → Option (List α)
  | [] => some [row]
  | r :: rest =>
    if key row < key r then some (row :: r :: rest)
    else if key row = key r then none
    else (insertRow key row rest).map (fun l => r :: l)

/-- The category insertion loop of `SqliteStorage::save` (into the emptied
`categories` table). -/
def insertCategories : List Category → List CategoryRow →
    Except StorageError (List CategoryRow)
  | [], table => .ok table
  | c :: rest, table =>
    match insertRow (fun r : CategoryRow => r.id) (categoryToRow c) table with
    | none => .error (.storage
        ("Failed to insert category: UNIQUE constraint failed: categories.id"))
    | some table' => insertCategories rest table'

/-- The task insertion loop of `SqliteStorage::save`: `PRAGMA foreign_keys = ON`
is in force, so a `category_id` with no matching row in the (just rebuilt)
`categories` table fails the insert. -/
def insertTasks : List Task → List CategoryRow → List TaskRow →
    Except StorageError (List TaskRow)
  | [], _, table => .ok table
  | t :: rest, cats, table =>
    if !(cats.any (fun c => c.id == t.category_id)) then
      .error (.storage ("Failed to insert task: FOREIGN KEY constraint failed"))
    else
      match insertRow (fun r : TaskRow => r.id) (taskToRow t) table with
      | none => .error (.storage
          ("Failed to insert task: UNIQUE constraint failed: tasks.id"))
      | some table' => insertTasks rest cats table'

/-- The `SqliteStorage::save` (src/src/storage/sqlite.rs, lines 114–158): in one
transaction, delete all rows from `tasks` and `categories`, reinsert every row
from the snapshot, commit. An error rolls the transaction back, so the caller's
`db` is unchanged whenever `.error` is returned. -/
def sqliteSave (data : StorageData) (db : Db) : Except StorageError Db := do
  let cats ← insertCategories data.categories []
  let tasks ← insertTasks data.tasks cats []
  .ok { db with categories := cats, tasks := tasks }

/-- Row decoding for a category (`query_map` closure in `SqliteStorage::load`):
parse `created_at` as RFC3339 or fail. -/
def rowToCategory (r : CategoryRow) : Except StorageError Category :=
  match parse_from_rfc3339 r.created_at with
  | some t => .ok { id := r.id, name := r.name, created_at := t }
  | none => .error (.storage ("Failed to read category: input contains invalid characters"))

/-- Row decoding for a task (`query_map` closure in `SqliteStorage::load`):
`string_to_priority` on the priority cell, RFC3339 parsing on both timestamps;
any failure fails the row. -/
def rowToTask (r : TaskRow) : Except StorageError Task := do
  let priority ← string_to_priority r.priority
  match parse_from_rfc3339 r.created_at, parse_from_rfc3339 r.updated_at with
  | some c, some u =>
    .ok { id := r.id, title := r.title, category_id := r.category_id,
          completed := r.completed, priority := priority,
          created_at := c, updated_at := u }
  | _, _ => .error (.storage ("Failed to read task: input contains invalid characters"))

/-- Collecting the `query_map` row iterator: the first failing row aborts the
whole load. -/
def collectRows (f : α → Except StorageError β) :
    List α → Except StorageError (List β)
  | [] => .ok []
  | r :: rest => do
    let x ← f r
    let xs ← collectRows f rest
    .ok (x :: xs)

/-- The `SqliteStorage::load` (src/src/storage/sqlite.rs, lines 160–250): read all
categories, then all tasks, decoding each row; no invariant validation. -/
def sqliteLoad (db : Db) : Except StorageError StorageData := do
  let categories ← collectRows rowToCategory db.categories
  let tasks ← collectRows rowToTask db.tasks
  .ok { tasks := tasks, categories := categories }

/-! ## The migration engine (src/src/storage/migrations.rs) -/

/-- A migration: version, forward SQL, backward SQL. -/
structure Migration where
  version : Int
  up : String
  down : String

/-- The `MIGRATIONS` (src/src/storage/migrations.rs, lines 66–74): the repository
defines no migrations beyond the initial schema. -/
def MIGRATIONS : List Migration := []

/-- The `apply_migrations` (src/src/storage/migrations.rs, lines 93–111), as a
function of the migration list and the stored version: it returns the new
stored version together with the list of executed forward SQL batches. When
`current < latest` it applies, inside one transaction, every migration whose
version exceeds `current`, updating the stored version to each applied
migration's version in turn; otherwise it executes nothing. -/
def apply_migrations (migs : List Migration) (current : Int) : Int × List String :=
  let latest := ((migs.getLast?).map Migration.version).getD 0
  if current < latest then
    let applied := migs.filter (fun m => current < m.version)
    (((applied.getLast?).map Migration.version).getD current,
     applied.map Migration.up)
  else
    (current, [])

/-! ## Concrete snapshots used as counterexamples and witnesses -/

/-- A snapshot violating referential integrity: task 1 references the missing
category 5 (the §3/§8 example). -/
def danglingData : StorageData :=
  { tasks := [{ id := 1, title := "orphan", category_id := 5, completed := false,
                priority := .medium, created_at := 0, updated_at := 0 }],
    categories := [] }

/-- A snapshot satisfying the §3 invariants: a single soft-deleted task, i.e.
one whose `category_id` is the sentinel 0 (invariant 1 exempts it). -/
def sentinelData : StorageData :=
  { tasks := [{ id := 1, title := "Deleted Task", category_id := 0,
                completed := false, priority := .medium,
                created_at := 0, updated_at := 0 }],
    categories := [] }

/-- A small valid snapshot: one category and one task referencing it. -/
def workData : StorageData :=
  { tasks := [{ id := 1, title := "High Priority Task", category_id := 1,
                completed := false, priority := .high,
                created_at := 0, updated_at := 0 }],
    categories := [{ id := 1, name := "Work", created_at := 0 }] }

/-- A store holding tasks with ids 1, 2 and 4 (the §8 id-generation example)
plus their categories. -/
def gapData : StorageData :=
  { tasks := [{ id := 1, title := "a", category_id := 1, completed := false,
                priority := .high, created_at := 0, updated_at := 0 },
              { id := 2, title := "b", category_id := 1, completed := true,
                priority := .medium, created_at := 0, updated_at := 0 },
              { id := 4, title := "c", category_id := 2, completed := false,
                priority := .low, created_at := 0, updated_at := 0 }],
    categories := [{ id := 1, name := "Work", created_at := 0 },
                   { id := 2, name := "Home", created_at := 0 }] }

/-- A task whose id (7) exists in no sample store. -/
def task7 : Task :=
  { id := 7, title := "ghost", category_id := 0, completed := false,
    priority := .low, created_at := 0, updated_at := 0 }

/-- A store with one live task, one stale soft-deleted task (updated at 0) and
one fresh soft-deleted task (updated at 5). -/
def purgeData : StorageData :=
  { tasks := [{ id := 1, title := "kept", category_id := 1, completed := false,
                priority := .high, created_at := 0, updated_at := 0 },
              { id := 2, title := "stale", category_id := 0, completed := false,
                priority := .medium, created_at := 0, updated_at := 0 },
              { id := 3, title := "fresh", category_id := 0, completed := false,
                priority := .low, created_at := 0, updated_at := 5 }],
    categories := [{ id := 1, name := "Work", created_at := 0 }] }

/-- The database state produced by saving `workData` into `initDb`. -/
def workDb : Db :=
  { schema_version := 1,
    categories := [{ id := 1, name := "Work", created_at := .rfc3339 0 }],
    tasks := [{ id := 1, title := "High Priority Task", category_id := 1,
                completed := false, priority := "high",
                created_at := .rfc3339 0, updated_at := .rfc3339 0 }] }

/-- A database whose single task row carries the unrecognized priority token
`INVALID_PRIORITY` (the §8 malformed-priority test). -/
def badDb : Db :=
  { schema_version := 1,
    categories := [{ id := 1, name := "Test Category", created_at := .rfc3339 0 }],
    tasks := [{ id := 1, title := "Test Task", category_id := 1,
                completed := false, priority := "INVALID_PRIORITY",
                created_at := .rfc3339 0, updated_at := .rfc3339 0 }] }

/-! ## Round-trip lemmas for the flat-file document -/

theorem decodePriority_encodePriority (p : Priority) :
    decodePriority (encodePriority p) = some p := by
  cases p <;> rfl

theorem decodeTask_encodeTask (t : Task) :
    decodeTask (encodeTask t) = some t := by
  obtain ⟨id, title, category_id, completed, priority, created_at, updated_at⟩ := t
  cases priority <;> rfl

theorem decodeCategory_encodeCategory (c : Category) :
    decodeCategory (encodeCategory c) = some c := rfl

theorem decodeListWith_map {α : Type} (f : Json → Option α) (g : α → Json)
    (l : List α) (h : ∀ x ∈ l, f (g x) = some x) :
    decodeListWith f (l.map g) = some l := by
  induction l with
  | nil => rfl
  | cons x xs ih =>
    simp only [List.map_cons, decodeListWith, h x (List.mem_cons_self x xs),
      Option.bind_eq_bind, Option.some_bind,
      ih (fun y hy => h y (List.mem_cons_of_mem x hy))]

theorem decodeStorageData_encodeStorageData (d : StorageData) :
    decodeStorageData (encodeStorageData d) = some d := by
  have ht : decodeListWith decodeTask (d.tasks.map encodeTask) = some d.tasks :=
    decodeListWith_map decodeTask encodeTask d.tasks
      (fun x _ => decodeTask_encodeTask x)
  have hc : decodeListWith decodeCategory (d.categories.map encodeCategory) =
      some d.categories :=
    decodeListWith_map decodeCategory encodeCategory d.categories
      (fun x _ => decodeCategory_encodeCategory x)
  simp [encodeStorageData, decodeStorageData, getField, ht, hc]

theorem fromStr_doc_encode (d : StorageData) :
    fromStr (.doc (encodeStorageData d)) = .ok d := by
  simp only [fromStr, decodeStorageData_encodeStorageData d]

/-- The `JsonStorage::save` always succeeds and replaces the file with the encoded
snapshot: the read-back returns exactly what was written, so the count check
always passes — and no invariant validation happens anywhere in `save`. -/
theorem jsonSave_ok (d : StorageData) (fs : FileState) :
    jsonSave d fs = .ok (.doc (encodeStorageData d)) := by
  simp only [jsonSave, fromStr_doc_encode d]
  simp

theorem jsonLoad_doc_encode (d : StorageData) :
    jsonLoad (.doc (encodeStorageData d)) = .ok d := by
  simp only [jsonLoad, fromStr_doc_encode d]

/-! ## Round-trip and insertion lemmas for the relational backend -/

theorem exceptBind_ok {ε α β : Type} (a : α) (f : α → Except ε β) :
    ((Except.ok a : Except ε α) >>= f) = f a := rfl

theorem exceptBind_error {ε α β : Type} (e : ε) (f : α → Except ε β) :
    ((Except.error e : Except ε α) >>= f) = .error e := rfl

theorem string_to_priority_roundtrip (p : Priority) :
    string_to_priority (priority_to_string p) = .ok p := by
  cases p <;> rfl

theorem rowToTask_taskToRow (t : Task) : rowToTask (taskToRow t) = .ok t := by
  obtain ⟨id, title, category_id, completed, priority, created_at, updated_at⟩ := t
  cases priority <;> rfl

theorem rowToCategory_categoryToRow (c : Category) :
    rowToCategory (categoryToRow c) = .ok c := rfl

theorem collectRows_map {α β : Type} (f : β → Except StorageError α) (g : α → β)
    (l : List α) (h : ∀ x ∈ l, f (g x) = .ok x) :
    collectRows f (l.map g) = .ok l := by
  induction l with
  | nil => rfl
  | cons x xs ih =>
    simp only [List.map_cons, collectRows, h x (List.mem_cons_self x xs),
      ih (fun y hy => h y (List.mem_cons_of_mem x hy))]
    rfl

theorem collectRows_error {α β : Type} (f : β → Except StorageError α)
    (l : List β) (r : β) (hr : r ∈ l) (e : StorageError) (he : f r = .error e) :
    ∃ e', collectRows f l = .error e' := by
  induction l with
  | nil => cases hr
  | cons x xs ih =>
    rcases List.mem_cons.mp hr with h | h
    · subst h
      exact ⟨e, by simp only [collectRows, he]; rfl⟩
    · cases hfx : f x with
      | error e'' => exact ⟨e'', by simp only [collectRows, hfx]; rfl⟩
      | ok v =>
        obtain ⟨e', hrec⟩ := ih h
        exact ⟨e', by simp only [collectRows, hfx, hrec]; rfl⟩

theorem insertRow_append {α : Type} (key : α → Nat) (row : α) (table : List α)
    (h : ∀ r ∈ table, key r < key row) :
    insertRow key row table = some (table ++ [row]) := by
  induction table with
  | nil => rfl
  | cons r rest ih =>
    have hr := h r (List.mem_cons_self r rest)
    simp only [insertRow, if_neg (by omega : ¬ key row < key r),
      if_neg (by omega : ¬ key row = key r),
      ih (fun x hx => h x (List.mem_cons_of_mem r hx))]
    rfl

theorem insertRow_perm {α : Type} (key : α → Nat) (row : α) (table table' : List α)
    (h : insertRow key row table = some table') : table'.Perm (row :: table) := by
  induction table generalizing table' with
  | nil =>
    simp only [insertRow, Option.some.injEq] at h
    subst h; rfl
  | cons r rest ih =>
    by_cases h1 : key row < key r
    · simp only [insertRow, if_pos h1, Option.some.injEq] at h
      subst h; rfl
    · by_cases h2 : key row = key r
      · simp only [insertRow, if_neg h1, if_pos h2] at h
        cases h
      · simp only [insertRow, if_neg h1, if_neg h2, Option.map_eq_some'] at h
        obtain ⟨l, hl, rfl⟩ := h
        exact ((ih l hl).cons r).trans (List.Perm.swap row r rest)

theorem insertCategories_sorted (cs : List Category) (table : List CategoryRow)
    (hs : cs.Pairwise (fun a b => a.id < b.id))
    (ht : ∀ r ∈ table, ∀ c ∈ cs, r.id < c.id) :
    insertCategories cs table = .ok (table ++ cs.map categoryToRow) := by
  induction cs generalizing table with
  | nil => simp [insertCategories]
  | cons c rest ih =>
    have hins : insertRow (fun r : CategoryRow => r.id) (categoryToRow c) table =
        some (table ++ [categoryToRow c]) :=
      insertRow_append _ _ _ (fun r hr => ht r hr c (List.mem_cons_self c rest))
    have ht' : ∀ r ∈ table ++ [categoryToRow c], ∀ c' ∈ rest, r.id < c'.id := by
      intro r hr c' hc'
      rcases List.mem_append.mp hr with h | h
      · exact ht r h c' (List.mem_cons_of_mem c hc')
      · simp only [List.mem_singleton] at h
        subst h
        exact (List.pairwise_cons.mp hs).1 c' hc'
    simp only [insertCategories, hins]
    rw [ih (table ++ [categoryToRow c]) (List.pairwise_cons.mp hs).2 ht']
    simp

theorem insertTasks_sorted (ts : List Task) (cats : List CategoryRow)
    (table : List TaskRow)
    (hs : ts.Pairwise (fun a b => a.id < b.id))
    (hfk : ∀ t ∈ ts, cats.any (fun c => c.id == t.category_id) = true)
    (ht : ∀ r ∈ table, ∀ t ∈ ts, r.id < t.id) :
    insertTasks ts cats table = .ok (table ++ ts.map taskToRow) := by
  induction ts generalizing table with
  | nil => simp [insertTasks]
  | cons t rest ih =>
    have hins : insertRow (fun r : TaskRow => r.id) (taskToRow t) table =
        some (table ++ [taskToRow t]) :=
      insertRow_append _ _ _ (fun r hr => ht r hr t (List.mem_cons_self t rest))
    have ht' : ∀ r ∈ table ++ [taskToRow t], ∀ t' ∈ rest, r.id < t'.id := by
      intro r hr t' htr
      rcases List.mem_append.mp hr with h | h
      · exact ht r h t' (List.mem_cons_of_mem t htr)
      · simp only [List.mem_singleton] at h
        subst h
        exact (List.pairwise_cons.mp hs).1 t' htr
    simp only [insertTasks, hfk t (List.mem_cons_self t rest), Bool.not_true,
      Bool.false_eq_true, if_false, hins]
    rw [ih (table ++ [taskToRow t]) (List.pairwise_cons.mp hs).2
      (fun x hx => hfk x (List.mem_cons_of_mem t hx)) ht']
    simp

theorem insertCategories_perm (cs : List Category) (table table' : List CategoryRow)
    (h : insertCategories cs table = .ok table') :
    table'.Perm (table ++ cs.map categoryToRow) := by
  induction cs generalizing table with
  | nil =>
    simp only [insertCategories, Except.ok.injEq] at h
    subst h; simp
  | cons c rest ih =>
    simp only [insertCategories] at h
    cases hins : insertRow (fun r : CategoryRow => r.id) (categoryToRow c) table with
    | none => rw [hins] at h; cases h
    | some t1 =>
      rw [hins] at h
      have hperm := insertRow_perm _ _ _ _ hins
      have h1 : table'.Perm (t1 ++ rest.map categoryToRow) := ih t1 h
      have h2 : (t1 ++ rest.map categoryToRow).Perm
          ((categoryToRow c :: table) ++ rest.map categoryToRow) :=
        hperm.append_right _
      have h3 : ((categoryToRow c :: table) ++ rest.map categoryToRow).Perm
          (table ++ categoryToRow c :: rest.map categoryToRow) :=
        List.perm_middle.symm
      simpa using h1.trans (h2.trans h3)

theorem insertTasks_perm (ts : List Task) (cats : List CategoryRow)
    (table table' : List TaskRow)
    (h : insertTasks ts cats table = .ok table') :
    table'.Perm (table ++ ts.map taskToRow) := by
  induction ts generalizing table with
  | nil =>
    simp only [insertTasks, Except.ok.injEq] at h
    subst h; simp
  | cons t rest ih =>
    simp only [insertTasks] at h
    by_cases hfk : cats.any (fun c => c.id == t.category_id) = true
    · rw [hfk] at h
      simp only [Bool.not_true, Bool.false_eq_true, if_false] at h
      cases hins : insertRow (fun r : TaskRow => r.id) (taskToRow t) table with
      | none => rw [hins] at h; cases h
      | some t1 =>
        rw [hins] at h
        have hperm := insertRow_perm _ _ _ _ hins
        have h1 : table'.Perm (t1 ++ rest.map taskToRow) := ih t1 h
        have h2 : (t1 ++ rest.map taskToRow).Perm
            ((taskToRow t :: table) ++ rest.map taskToRow) :=
          hperm.append_right _
        have h3 : ((taskToRow t :: table) ++ rest.map taskToRow).Perm
            (table ++ taskToRow t :: rest.map taskToRow) :=
          List.perm_middle.symm
        simpa using h1.trans (h2.trans h3)
    · rw [Bool.not_eq_true] at hfk
      rw [hfk] at h
      simp at h

theorem insertTasks_fk_error (ts : List Task) (cats : List CategoryRow)
    (table : List TaskRow) (t : Task) (htm : t ∈ ts)
    (hfk : cats.any (fun c => c.id == t.category_id) = false) :
    ∃ msg, insertTasks ts cats table = .error (.storage msg) := by
  induction ts generalizing table with
  | nil => cases htm
  | cons x rest ih =>
    rcases List.mem_cons.mp htm with h | h
    · subst h
      refine ⟨"Failed to insert task: FOREIGN KEY constraint failed", ?_⟩
      simp [insertTasks, hfk]
    · by_cases hx : cats.any (fun c => c.id == x.category_id) = true
      · simp only [insertTasks, hx, Bool.not_true, Bool.false_eq_true, if_false]
        cases hins : insertRow (fun r : TaskRow => r.id) (taskToRow x) table with
        | none =>
          exact ⟨"Failed to insert task: UNIQUE constraint failed: tasks.id", rfl⟩
        | some t1 => exact ih t1 h
      · refine ⟨"Failed to insert task: FOREIGN KEY constraint failed", ?_⟩
        rw [Bool.not_eq_true] at hx
        simp [insertTasks, hx]

/-! ## Miscellaneous helper lemmas -/

theorem getLast?_filter_of_getLast? {α : Type} (p : α → Bool) (l : List α) (x : α)
    (hl : l.getLast? = some x) (hp : p x = true) :
    (l.filter p).getLast? = some x := by
  induction l with
  | nil => cases hl
  | cons a rest ih =>
    cases rest with
    | nil =>
      simp only [List.getLast?_singleton, Option.some.injEq] at hl
      subst hl
      simp [List.filter, hp]
    | cons b rest' =>
      rw [List.getLast?_cons_cons] at hl
      have hfl := ih hl
      have hne : (b :: rest').filter p ≠ [] := by
        intro hnil
        rw [hnil] at hfl
        cases hfl
      by_cases ha : p a = true
      · rw [List.filter_cons_of_pos ha]
        cases hfb : (b :: rest').filter p with
        | nil => exact absurd hfb hne
        | cons c cs =>
          rw [hfb] at hfl
          rw [List.getLast?_cons_cons]
          exact hfl
      · rw [List.filter_cons_of_neg (by simpa using ha)]
        exact hfl

theorem natMax?_eq_some_iff {l : List Nat} {a : Nat} :
    l.max? = some a ↔ a ∈ l ∧ ∀ b ∈ l, b ≤ a :=
  @List.max?_eq_some_iff Nat a _ _ ⟨fun h h' => Nat.le_antisymm h h'⟩
    (fun x => Nat.le_refl x) (fun x y => max_choice x y)
    (fun _ _ _ => Nat.max_le) (l)

theorem mapFirstTask_decomp (i : Nat) (f : Task → Task) (l : List Task)
    (h : l.any (fun t => t.id == i) = true) :
    ∃ l₁ t l₂, l = l₁ ++ t :: l₂ ∧ (∀ u ∈ l₁, u.id ≠ i) ∧ t.id = i ∧
      mapFirstTask i f l = l₁ ++ f t :: l₂ := by
  induction l with
  | nil => cases h
  | cons a rest ih =>
    by_cases ha : a.id = i
    · exact ⟨[], a, rest, by simp, by simp, ha, by simp [mapFirstTask, ha]⟩
    · have h' : rest.any (fun t => t.id == i) = true := by
        simp only [List.any_cons, Bool.or_eq_true, beq_iff_eq] at h
        rcases h with h | h
        · exact absurd h ha
        · simpa using h
      obtain ⟨l₁, t, l₂, hl, hu, hti, hm⟩ := ih h'
      refine ⟨a :: l₁, t, l₂, by simp [hl], ?_, hti, by simp [mapFirstTask, ha, hm]⟩
      intro u hu'
      rcases List.mem_cons.mp hu' with h | h
      · subst h; exact ha
      · exact hu u h

theorem insertCategories_ok_or_storage (cs : List Category) (table : List CategoryRow) :
    (∃ t', insertCategories cs table = .ok t') ∨
      insertCategories cs table = .error (.storage
        ("Failed to insert category: UNIQUE constraint failed: categories.id")) := by
  induction cs generalizing table with
  | nil => exact .inl ⟨table, rfl⟩
  | cons c rest ih =>
    cases hins : insertRow (fun r : CategoryRow => r.id) (categoryToRow c) table with
    | none => exact .inr (by simp [insertCategories, hins])
    | some t1 =>
      rcases ih t1 with ⟨t', ht'⟩ | herr
      · exact .inl ⟨t', by simp [insertCategories, hins, ht']⟩
      · exact .inr (by simp [insertCategories, hins, herr])

theorem rowToTask_error_of_bad (r : TaskRow)
    (h : (string_to_priority r.priority).isOk = false ∨
      parse_from_rfc3339 r.created_at = none ∨ parse_from_rfc3339 r.updated_at = none) :
    ∃ e, rowToTask r = .error e := by
  cases hp : string_to_priority r.priority with
  | error e => exact ⟨e, by simp [rowToTask, hp]; rfl⟩
  | ok p =>
    rcases h with h | h | h
    · rw [hp] at h; cases h
    · refine ⟨.storage ("Failed to read task: input contains invalid characters"), ?_⟩
      simp only [rowToTask, hp, h]
      cases parse_from_rfc3339 r.updated_at <;> rfl
    · refine ⟨.storage ("Failed to read task: input contains invalid characters"), ?_⟩
      simp only [rowToTask, hp, h]
      cases parse_from_rfc3339 r.created_at <;> rfl

theorem decide_lt_eq_not_le (a b : Int) : decide (a < b) = !decide (b ≤ a) := by
  by_cases h : b ≤ a
  · simp [h, not_lt.mpr h]
  · simp [h, lt_of_not_le h]

theorem rowToCategory_error_of_bad (r : CategoryRow)
    (h : parse_from_rfc3339 r.created_at = none) :
    ∃ e, rowToCategory r = .error e :=
  ⟨.storage ("Failed to read category: input contains invalid characters"),
    by simp [rowToCategory, h]⟩

/-! ## The claims -/

/-- C1 — counterexample. The claim says that for both backends `save`
validates the §3 invariants and fails with a Validation error on every
violating snapshot. On the flat-file backend, saving a snapshot containing a
task with `category_id = 5` and no category 5 succeeds and writes the file:
`JsonStorage::save` never calls `StorageData::validate`. -/
theorem C1_counterexample :
    danglingData.validate = .error (.invalidTaskCategory 1 5) ∧
      jsonSave danglingData .absent =
        .ok (.doc (encodeStorageData danglingData)) := by
  exact ⟨rfl, rfl⟩

/-- C1 — amended. Neither backend runs the §3 invariant checks on `save`:
the flat-file `save` succeeds on every snapshot (including invariant-violating
ones), and the relational `save` rejects a task whose `category_id` matches no
category of the snapshot only through the database foreign-key constraint,
surfacing a generic `Storage` error (the transaction is rolled back, so no
write takes effect) rather than a Validation error. -/
theorem C1_no_validation_in_save :
    (∀ (d : StorageData) (fs : FileState),
      jsonSave d fs = .ok (.doc (encodeStorageData d))) ∧
    (∀ (d : StorageData) (db : Db),
      (∃ t ∈ d.tasks, ∀ c ∈ d.categories, c.id ≠ t.category_id) →
      ∃ msg, sqliteSave d db = .error (.storage msg)) := by
  constructor
  · exact fun d fs => jsonSave_ok d fs
  · intro d db ⟨t, htm, hnc⟩
    rcases insertCategories_ok_or_storage d.categories [] with ⟨cats, hcats⟩ | herr
    · have hperm : cats.Perm (d.categories.map categoryToRow) := by
        simpa using insertCategories_perm d.categories [] cats hcats
      have hany : cats.any (fun c => c.id == t.category_id) = false := by
        rw [List.any_eq_false]
        intro c hc
        obtain ⟨c0, hc0, rfl⟩ := List.mem_map.mp (hperm.mem_iff.mp hc)
        simpa [categoryToRow] using hnc c0 hc0
      obtain ⟨msg, hmsg⟩ := insertTasks_fk_error d.tasks cats [] t htm hany
      exact ⟨msg, by
        simp only [sqliteSave, hcats, exceptBind_ok, hmsg, exceptBind_error]⟩
    · exact ⟨"Failed to insert category: UNIQUE constraint failed: categories.id",
        by simp only [sqliteSave, herr, exceptBind_error]⟩

/-- C1 — witness for the amended theorem: on the relational backend,
saving the dangling snapshot into the fresh database yields a Storage error. -/
theorem C1_witness :
    ∃ msg, sqliteSave danglingData initDb = .error (.storage msg) :=
  C1_no_validation_in_save.2 danglingData initDb
    ⟨{ id := 1, title := "orphan", category_id := 5, completed := false,
       priority := .medium, created_at := 0, updated_at := 0 },
     by simp [danglingData], by simp [danglingData]⟩

/-- C2 — counterexample. The claim says save-then-load round-trips every
snapshot satisfying the §3 invariants, for both backends. The sentinel
snapshot (one task with `category_id = 0`) satisfies the invariants, yet the
relational `save` already fails on it: with `PRAGMA foreign_keys = ON` and a
`tasks.category_id → categories.id` foreign key, the sentinel 0 matches no
category row, so the insert is rejected. -/
theorem C2_counterexample :
    sentinelData.validate = .ok () ∧ (sqliteSave sentinelData initDb).isOk = false := by
  exact ⟨rfl, rfl⟩

/-- C2 — amended. Flat-file backend: save-then-load returns an equal
snapshot, for every snapshot satisfying the invariants. Relational backend:
the same holds provided additionally that every task's `category_id`
(including the sentinel 0) matches a category of the snapshot and that both
lists have strictly increasing ids — ids are the `INTEGER PRIMARY KEY`, so
duplicate ids are rejected by the UNIQUE constraint, and a full-table `SELECT`
returns rows in ascending id order rather than snapshot order. -/
theorem C2_roundtrip :
    (∀ (d : StorageData) (fs : FileState), d.validate = .ok () →
      ∃ fs', jsonSave d fs = .ok fs' ∧ jsonLoad fs' = .ok d) ∧
    (∀ (d : StorageData) (db : Db), d.validate = .ok () →
      d.tasks.Pairwise (fun a b => a.id < b.id) →
      d.categories.Pairwise (fun a b => a.id < b.id) →
      (∀ t ∈ d.tasks, ∃ c ∈ d.categories, c.id = t.category_id) →
      ∃ db', sqliteSave d db = .ok db' ∧ sqliteLoad db' = .ok d) := by
  constructor
  · intro d fs _
    exact ⟨.doc (encodeStorageData d), jsonSave_ok d fs, jsonLoad_doc_encode d⟩
  · intro d db _ hts hcs hfk
    have hfk' : ∀ t ∈ d.tasks,
        (d.categories.map categoryToRow).any (fun c => c.id == t.category_id) = true := by
      intro t ht
      obtain ⟨c, hc, hcid⟩ := hfk t ht
      rw [List.any_eq_true]
      exact ⟨categoryToRow c, List.mem_map_of_mem _ hc,
        by simpa [categoryToRow] using hcid⟩
    have hcats : insertCategories d.categories [] =
        .ok (d.categories.map categoryToRow) := by
      simpa using insertCategories_sorted d.categories [] hcs (by simp)
    have htasks : insertTasks d.tasks (d.categories.map categoryToRow) [] =
        .ok (d.tasks.map taskToRow) := by
      simpa using insertTasks_sorted d.tasks (d.categories.map categoryToRow) []
        hts hfk' (by simp)
    refine ⟨⟨db.schema_version, d.categories.map categoryToRow, d.tasks.map taskToRow⟩, ?_, ?_⟩
    · simp only [sqliteSave, hcats, exceptBind_ok, htasks]
    · have hc : collectRows rowToCategory (d.categories.map categoryToRow) =
          .ok d.categories :=
        collectRows_map _ _ _ (fun c _ => rowToCategory_categoryToRow c)
      have ht : collectRows rowToTask (d.tasks.map taskToRow) = .ok d.tasks :=
        collectRows_map _ _ _ (fun t _ => rowToTask_taskToRow t)
      simp only [sqliteLoad, hc, ht, exceptBind_ok]

/-- C2 — witness: both amended round-trips at concrete valid snapshots. -/
theorem C2_witness :
    (∃ fs', jsonSave sentinelData .absent = .ok fs' ∧
      jsonLoad fs' = .ok sentinelData) ∧
    (∃ db', sqliteSave workData initDb = .ok db' ∧
      sqliteLoad db' = .ok workData) :=
  ⟨C2_roundtrip.1 sentinelData .absent rfl,
   C2_roundtrip.2 workData initDb rfl (by simp [workData])
     (by simp [workData]) (by simp [workData])⟩

/-- C3 — counterexample. The claim says `delete_task` on a missing id
fails with a Storage error naming the id. On an empty store, deleting the
nonexistent id 7 succeeds: the body is `retain` + `save`, with no existence
check. -/
theorem C3_counterexample :
    delete_task .absent 7 =
      .ok (.doc (encodeStorageData { tasks := [], categories := [] })) := rfl

/-- C3 — amended. `update_task` on a missing id fails with the Storage
error `Task with id {id} not found`, naming the id; `delete_task` on a missing
id succeeds silently, leaving the stored snapshot unchanged. -/
theorem C3_missing_id (fs : FileState) (d : StorageData) (i : Nat) (task : Task)
    (hload : jsonLoad fs = .ok d) (hnone : ∀ t ∈ d.tasks, t.id ≠ i)
    (hid : task.id = i) :
    update_task fs task =
      .error (.storage ("Task with id (" ++ toString i ++ ") not found")) ∧
    ∃ fs', delete_task fs i = .ok fs' ∧ jsonLoad fs' = .ok d := by
  constructor
  · have hany : d.tasks.any (fun t => t.id == task.id) = false := by
      rw [List.any_eq_false]
      intro t ht
      simp only [beq_iff_eq, hid]
      exact hnone t ht
    rw [update_task, hload, exceptBind_ok, hany, hid]
    simp
  · have hfilter : d.tasks.filter (fun t => t.id ≠ i) = d.tasks :=
      List.filter_eq_self.mpr (fun t ht => by simpa using hnone t ht)
    refine ⟨.doc (encodeStorageData d), ?_, jsonLoad_doc_encode d⟩
    rw [delete_task, hload, exceptBind_ok, hfilter]
    exact jsonSave_ok d fs

/-- C3 — witness: on the store holding only task 1, updating the
nonexistent task 7 errors naming 7, and deleting id 7 is a silent no-op. -/
theorem C3_witness :
    update_task (.doc (encodeStorageData workData)) task7 =
      .error (.storage ("Task with id (" ++ toString 7 ++ ") not found")) ∧
    ∃ fs', delete_task (.doc (encodeStorageData workData)) 7 = .ok fs' ∧
      jsonLoad fs' = .ok workData :=
  C3_missing_id (.doc (encodeStorageData workData)) workData 7 task7
    (jsonLoad_doc_encode workData) (by decide) rfl

/-- C4 — counterexample. The claim says `load()` on an empty backing file
returns the empty default snapshot and never an error. The live
`JsonStorage::load` (src/src/storage/mod.rs) only special-cases a *missing*
file; an existing empty file is handed to `serde_json::from_str`, which fails,
so `load` returns a Serialization error. -/
theorem C4_counterexample :
    jsonLoad (.text ("")) = .error (.serialization ("expected value: ")) := rfl

/-- C4 — amended. `load()` on a nonexistent backing file returns the empty
default snapshot, and so does the relational `load` on a freshly initialized
database; but `load()` on an existing *empty* file fails with a Serialization
error (the empty-file special case exists only in the orphaned
`src/src/storage/json.rs`, which is not part of the module tree). -/
theorem C4_empty_store_load :
    jsonLoad .absent = .ok { tasks := [], categories := [] } ∧
    sqliteLoad initDb = .ok { tasks := [], categories := [] } ∧
    ∃ msg, jsonLoad (.text ("")) = .error (.serialization msg) :=
  ⟨rfl, rfl, "expected value: ", rfl⟩

/-- C5. Every relational `save` is a full replace inside one transaction:
when the call succeeds, the persisted tables hold exactly the rows encoding
the snapshot's tasks and categories (as row multisets; the table keeps them in
primary-key order) and the schema version is untouched. When the call returns
an error, the transaction rolls back: in this state-passing model an `.error`
result carries no new database state, so the caller keeps `db` unchanged. -/
theorem C5_save_full_replace (d : StorageData) (db db' : Db)
    (h : sqliteSave d db = .ok db') :
    db'.schema_version = db.schema_version ∧
    db'.categories.Perm (d.categories.map categoryToRow) ∧
    db'.tasks.Perm (d.tasks.map taskToRow) := by
  cases hcats : insertCategories d.categories [] with
  | error e => rw [sqliteSave, hcats, exceptBind_error] at h; cases h
  | ok cats =>
    rw [sqliteSave, hcats, exceptBind_ok] at h
    cases htasks : insertTasks d.tasks cats [] with
    | error e => rw [htasks, exceptBind_error] at h; cases h
    | ok tasks =>
      rw [htasks, exceptBind_ok] at h
      cases h
      refine ⟨rfl, ?_, ?_⟩
      · simpa using insertCategories_perm d.categories [] cats hcats
      · simpa using insertTasks_perm d.tasks cats [] tasks htasks

/-- C5 — witness: saving `workData` into the fresh database succeeds and
the resulting tables are exactly its encoded rows. -/
theorem C5_witness :
    sqliteSave workData initDb = .ok workDb ∧
    (workDb.schema_version = initDb.schema_version ∧
     workDb.categories.Perm (workData.categories.map categoryToRow) ∧
     workDb.tasks.Perm (workData.tasks.map taskToRow)) :=
  ⟨rfl, C5_save_full_replace workData initDb workDb rfl⟩

/-- C6. `purge_deleted_tasks(0)` removes exactly the tasks whose
`category_id` is 0 and whose `updated_at` is not after the current time: the
stored task list becomes the original one filtered by
`¬(category_id = 0 ∧ updated_at ≤ now)` — so every task in a nonzero category
survives unchanged regardless of age — and the categories are untouched. -/
theorem C6_purge_zero_days (fs : FileState) (d : StorageData) (now : Timestamp)
    (hload : jsonLoad fs = .ok d) :
    ∃ fs', purge_deleted_tasks now fs 0 = .ok fs' ∧
      jsonLoad fs' = .ok
        { tasks := d.tasks.filter
            (fun t => ¬(t.category_id = 0 ∧ t.updated_at ≤ now)),
          categories := d.categories } := by
  have hfil : d.tasks.filter (fun t =>
      if t.category_id = 0 then now - durationDays 0 < t.updated_at else true) =
      d.tasks.filter (fun t => ¬(t.category_id = 0 ∧ t.updated_at ≤ now)) := by
    apply List.filter_congr
    intro t _
    by_cases h0 : t.category_id = 0
    · simp [h0, durationDays, decide_lt_eq_not_le]
    · simp [h0]
  refine ⟨.doc (encodeStorageData ⟨d.tasks.filter
      (fun t => ¬(t.category_id = 0 ∧ t.updated_at ≤ now)), d.categories⟩),
    ?_, jsonLoad_doc_encode _⟩
  rw [purge_deleted_tasks, hload, exceptBind_ok]
  show jsonSave ⟨d.tasks.filter (fun t =>
      if t.category_id = 0 then now - durationDays 0 < t.updated_at else true),
    d.categories⟩ fs = _
  rw [hfil]
  exact jsonSave_ok _ fs

/-- C6 — witness: purging `purgeData` at time 3 removes exactly the stale
soft-deleted task (id 2, updated at 0 ≤ 3), keeping the live task and the
fresh soft-deleted one. -/
theorem C6_witness :
    ∃ fs', purge_deleted_tasks 3 (.doc (encodeStorageData purgeData)) 0 = .ok fs' ∧
      jsonLoad fs' = .ok
        { tasks := purgeData.tasks.filter
            (fun t => ¬(t.category_id = 0 ∧ t.updated_at ≤ 3)),
          categories := purgeData.categories } :=
  C6_purge_zero_days (.doc (encodeStorageData purgeData)) purgeData 3
    (jsonLoad_doc_encode purgeData)

/-- C7. Id allocation follows the max-plus-one policy: `get_next_task_id`
and `get_next_category_id` both return one more than the largest existing id
(so the result is strictly above every stored id and, on a nonempty store,
equals some stored id plus one), and 1 on an empty store. -/
theorem C7_next_id_max_plus_one (fs : FileState) (d : StorageData)
    (hload : jsonLoad fs = .ok d) :
    (∃ n, get_next_task_id fs = .ok n ∧
      (d.tasks = [] → n = 1) ∧ (∀ t ∈ d.tasks, t.id < n) ∧
      (d.tasks ≠ [] → ∃ t ∈ d.tasks, n = t.id + 1)) ∧
    (∃ n, get_next_category_id fs = .ok n ∧
      (d.categories = [] → n = 1) ∧ (∀ c ∈ d.categories, c.id < n) ∧
      (d.categories ≠ [] → ∃ c ∈ d.categories, n = c.id + 1)) := by
  constructor
  · refine ⟨((d.tasks.map Task.id).max?).getD 0 + 1, ?_, ?_, ?_, ?_⟩
    · rw [get_next_task_id, hload, exceptBind_ok]
    · intro he; simp [he]
    · intro t ht
      cases hm : (d.tasks.map Task.id).max? with
      | none =>
        rw [List.max?_eq_none_iff, List.map_eq_nil_iff] at hm
        rw [hm] at ht; cases ht
      | some a =>
        obtain ⟨-, hb⟩ := natMax?_eq_some_iff.mp hm
        have := hb t.id (List.mem_map_of_mem Task.id ht)
        simp only [hm, Option.getD_some]
        omega
    · intro hne
      cases hm : (d.tasks.map Task.id).max? with
      | none =>
        rw [List.max?_eq_none_iff, List.map_eq_nil_iff] at hm
        exact absurd hm hne
      | some a =>
        obtain ⟨ha, -⟩ := natMax?_eq_some_iff.mp hm
        obtain ⟨t, ht, hti⟩ := List.mem_map.mp ha
        exact ⟨t, ht, by simp [hm, hti]⟩
  · refine ⟨((d.categories.map Category.id).max?).getD 0 + 1, ?_, ?_, ?_, ?_⟩
    · rw [get_next_category_id, hload, exceptBind_ok]
    · intro he; simp [he]
    · intro c hc
      cases hm : (d.categories.map Category.id).max? with
      | none =>
        rw [List.max?_eq_none_iff, List.map_eq_nil_iff] at hm
        rw [hm] at hc; cases hc
      | some a =>
        obtain ⟨-, hb⟩ := natMax?_eq_some_iff.mp hm
        have := hb c.id (List.mem_map_of_mem Category.id hc)
        simp only [hm, Option.getD_some]
        omega
    · intro hne
      cases hm : (d.categories.map Category.id).max? with
      | none =>
        rw [List.max?_eq_none_iff, List.map_eq_nil_iff] at hm
        exact absurd hm hne
      | some a =>
        obtain ⟨ha, -⟩ := natMax?_eq_some_iff.mp hm
        obtain ⟨c, hc, hci⟩ := List.mem_map.mp ha
        exact ⟨c, hc, by simp [hm, hci]⟩

/-- C7 — witness: on the store with task ids {1, 2, 4} the policy holds,
and concretely `get_next_task_id` returns 5 (and `get_next_category_id`,
with category ids {1, 2}, returns 3); on the empty store both return 1. -/
theorem C7_witness :
    (∃ n, get_next_task_id (.doc (encodeStorageData gapData)) = .ok n ∧
      (gapData.tasks = [] → n = 1) ∧ (∀ t ∈ gapData.tasks, t.id < n) ∧
      (gapData.tasks ≠ [] → ∃ t ∈ gapData.tasks, n = t.id + 1)) ∧
    get_next_task_id (.doc (encodeStorageData gapData)) = .ok 5 ∧
    get_next_category_id (.doc (encodeStorageData gapData)) = .ok 3 ∧
    get_next_task_id .absent = .ok 1 ∧
    get_next_category_id .absent = .ok 1 :=
  ⟨(C7_next_id_max_plus_one (.doc (encodeStorageData gapData)) gapData
      (jsonLoad_doc_encode gapData)).1,
   rfl, rfl, rfl, rfl⟩

/-- C8. `apply_migrations` is idempotent: whatever stored version a first
run leaves behind, a second run succeeds as a no-op — it returns the same
stored version and executes no migration SQL (an empty batch list). The
repository's `MIGRATIONS` list is a special case. -/
theorem C8_apply_migrations_idempotent (migs : List Migration) (v : Int) :
    apply_migrations migs (apply_migrations migs v).1 =
      ((apply_migrations migs v).1, []) := by
  cases hm : migs.getLast? with
  | none =>
    have hnil : migs = [] := List.getLast?_eq_none_iff.mp hm
    subst hnil
    simp [apply_migrations]
  | some m =>
    by_cases hv : v < m.version
    · have hp : (fun mi : Migration => decide (v < mi.version)) m = true := by
        simpa using hv
      have hlast := getLast?_filter_of_getLast?
        (fun mi : Migration => decide (v < mi.version)) migs m hm hp
      have h1 : (apply_migrations migs v).1 = m.version := by
        simp [apply_migrations, hm, hv, hlast]
      rw [h1]
      simp [apply_migrations, hm]
    · have h1 : (apply_migrations migs v).1 = v := by
        simp [apply_migrations, hm, hv]
      rw [h1]
      simp [apply_migrations, hm, hv]

/-- C9. The relational `load` fails with a typed error whenever any stored
row is malformed: a task row whose priority cell is not recognized by
`string_to_priority` (e.g. `INVALID_PRIORITY`) or whose timestamp cells do not
parse as RFC3339, or a category row whose timestamp cell does not parse. No
such row is ever coerced to a default — the whole load returns `.error`. -/
theorem C9_load_rejects_bad_rows (db : Db) :
    (∀ r ∈ db.tasks, ((string_to_priority r.priority).isOk = false ∨
        parse_from_rfc3339 r.created_at = none ∨
        parse_from_rfc3339 r.updated_at = none) →
      ∃ e, sqliteLoad db = .error e) ∧
    (∀ r ∈ db.categories, parse_from_rfc3339 r.created_at = none →
      ∃ e, sqliteLoad db = .error e) := by
  constructor
  · intro r hr hbad
    obtain ⟨e, he⟩ := rowToTask_error_of_bad r hbad
    obtain ⟨e', he'⟩ := collectRows_error rowToTask db.tasks r hr e he
    cases hc : collectRows rowToCategory db.categories with
    | error ec => exact ⟨ec, by rw [sqliteLoad, hc, exceptBind_error]⟩
    | ok cs =>
      exact ⟨e', by rw [sqliteLoad, hc, exceptBind_ok, he', exceptBind_error]⟩
  · intro r hr hbad
    obtain ⟨e, he⟩ := rowToCategory_error_of_bad r hbad
    obtain ⟨e', he'⟩ := collectRows_error rowToCategory db.categories r hr e he
    exact ⟨e', by rw [sqliteLoad, he', exceptBind_error]⟩

/-- C9 — witness: loading the database whose task row has the priority
token `INVALID_PRIORITY` fails. -/
theorem C9_witness : ∃ e, sqliteLoad badDb = .error e :=
  (C9_load_rejects_bad_rows badDb).1
    { id := 1, title := "Test Task", category_id := 1, completed := false,
      priority := "INVALID_PRIORITY",
      created_at := .rfc3339 0, updated_at := .rfc3339 0 }
    (by simp [badDb]) (.inl (by decide))

/-- C10. When the stored state contains a task with id `i`,
`move_task_to_category(i, c)` rewrites only the first such task, replacing its
`category_id` by `c` and its `updated_at` by the current time — the record
update keeps its id, title, priority, completion flag and `created_at` — while
every task before and after it and the whole category list are unchanged; and
`soft_delete_task(i)` is literally `move_task_to_category(i, 0)`. -/
theorem C10_move_task_frame (fs : FileState) (d : StorageData) (now : Timestamp)
    (i c : Nat) (hload : jsonLoad fs = .ok d)
    (hany : d.tasks.any (fun t => t.id == i) = true) :
    soft_delete_task now fs i = move_task_to_category now fs i 0 ∧
    ∃ l₁ t l₂ fs', d.tasks = l₁ ++ t :: l₂ ∧ (∀ u ∈ l₁, u.id ≠ i) ∧ t.id = i ∧
      move_task_to_category now fs i c = .ok fs' ∧
      jsonLoad fs' = .ok
        ⟨l₁ ++ { t with category_id := c, updated_at := now } :: l₂,
         d.categories⟩ := by
  refine ⟨rfl, ?_⟩
  obtain ⟨l₁, t, l₂, hl, hu, hti, hmap⟩ := mapFirstTask_decomp i
    (fun t => { t with category_id := c, updated_at := now }) d.tasks hany
  refine ⟨l₁, t, l₂,
    .doc (encodeStorageData ⟨l₁ ++ { t with category_id := c, updated_at := now } :: l₂,
      d.categories⟩), hl, hu, hti, ?_, jsonLoad_doc_encode _⟩
  rw [move_task_to_category, hload, exceptBind_ok, hany]
  simp only [if_true]
  rw [show (mapFirstTask i
      (fun t => { t with category_id := c, updated_at := now }) d.tasks) =
    l₁ ++ { t with category_id := c, updated_at := now } :: l₂ from hmap]
  exact jsonSave_ok _ fs

/-- C10 — witness: in the one-task store, moving task 1 to category 2
touches only its `category_id` and `updated_at`. -/
theorem C10_witness :
    soft_delete_task 9 (.doc (encodeStorageData workData)) 1 =
      move_task_to_category 9 (.doc (encodeStorageData workData)) 1 0 ∧
    ∃ l₁ t l₂ fs', workData.tasks = l₁ ++ t :: l₂ ∧ (∀ u ∈ l₁, u.id ≠ 1) ∧
      t.id = 1 ∧
      move_task_to_category 9 (.doc (encodeStorageData workData)) 1 2 = .ok fs' ∧
      jsonLoad fs' = .ok
        ⟨l₁ ++ { t with category_id := 2, updated_at := 9 } :: l₂,
         workData.categories⟩ :=
  C10_move_task_frame (.doc (encodeStorageData workData)) workData 9 1 2
    (jsonLoad_doc_encode workData) (by decide)

end TodoStorage
